import Mathlib

/-!
Verification development for the extended Redis client layer of the
`somescripts` repository (`src/django/django_redis_ext/client.py` and
`src/django/django_redis_ext/cache.py`).

The Python classes `DjangoRedisExtended` (client layer) and
`RedisCacheExtended` (cache layer) are shallowly embedded below.  The
key/value store is a finite association list of namespaced keys, the
store-side script cache is a list of loaded hashes, and every operation
additionally reports the list of commands it issued to the store, so that
claims about "which commands were sent" (compiles, DEL vs UNLINK, commands
issued before a validation error) are directly expressible.

External collaborators (the third-party `django_redis` package: the
`make_key`/`make_pattern` namespacing, the `omit_exception` decorator) are
not under `src/`; they are modelled from the spec and marked as such in
their doc comments.  Glob matching is performed store-side by `SCAN ...
MATCH`; it is abstracted as a predicate on namespaced keys.
-/

deriving instance DecidableEq for Except

namespace RedisExt

/-- Exceptions that can surface from the layer.  `connectionInterrupted` is
django_redis's wrapper for connection-establishment / protocol failures;
`valueError`, `attributeError`, `typeError` are the Python builtins raised by
the client code itself; `noScript` is the store's reply to EVALSHA with an
unknown hash. -/
inductive Exc where
  | connectionInterrupted
  | valueError
  | noScript
  | attributeError
  | typeError
  deriving DecidableEq, Repr

/-- Commands issued to the store (or to the connection pool), in order. -/
inductive Cmd where
  | kvGet (k : String)
  | scriptLoad (text : String)
  | kvSet (k v : String)
  | evalSha (sha : String)
  | storeCall (command key : String)
  | existsCmd (k : String)
  | renameCmd (k nk : String)
  | zremCmd (k : String) (members : List String)
  | getClient
  deriving DecidableEq, Repr

/-- The key/value part of the store: an association list from namespaced key
to stored value. -/
abbrev KV := List (String × String)

/-- Lookup of a key in the store. -/
def kvGet (kv : KV) (k : String) : Option String :=
  (kv.find? (fun p => p.1 == k)).map Prod.snd

/-- SET: the new binding shadows (replaces) any previous binding of `k`. -/
def kvSet (kv : KV) (k v : String) : KV :=
  (k, v) :: kv.filter (fun p => p.1 != k)

/-- DEL of a single key. -/
def kvDel (kv : KV) (k : String) : KV :=
  kv.filter (fun p => p.1 != k)

/-- Store state: the keyspace plus the store-side script cache (hashes of
loaded scripts). -/
structure Store where
  kv : KV
  scripts : List String
  deriving DecidableEq, Repr

/-- Client context: key prefix, default key version, and the store's script
content-hash function (SCRIPT LOAD returns the hash of the source text). -/
structure Ctx where
  pfx : String
  defaultVer : String
  hashFn : String → String

/-- Modelled from the spec: django_redis namespacing, `prefix:version:key`
(the `make_key` helper lives in the third-party django_redis DefaultClient,
not under src/).  Spec section 3: "combining it with a mandatory prefix and
an optional version integer (prefix:version:key)". -/
def make_key (pfx ver key : String) : String :=
  pfx ++ ":" ++ ver ++ ":" ++ key

/-- Resolution of the optional `version` argument against the configured
default, as django_redis does for every keyed operation. -/
def resolveVer (version : Option String) (ctx : Ctx) : String :=
  version.getD ctx.defaultVer

/-- Python `str.lower()` on ASCII command names, as a character map (the
library `String.toLower` is extensionally the same but does not reduce in
the kernel). -/
def strLower (s : String) : String :=
  ⟨s.data.map Char.toLower⟩

/-- Python `str.upper()` on ASCII command names, as a character map. -/
def strUpper (s : String) : String :=
  ⟨s.data.map Char.toUpper⟩

/-- Storage key for the cached script hash of one bulk-op command kind
(client.py line 57: `f'proc__{command.lower()}__pattern'`). -/
def storageKey (command : String) : String :=
  "proc__" ++ strLower command ++ "__pattern"

/-- The Lua procedure source built in `_do_pattern` (client.py lines 40-55),
as a function of the spliced command name. -/
def procedureText (command : String) : String :=
  "local cursor=\"0\";\nlocal count = 0;\nrepeat\n local scanResult = redis.call(\"SCAN\", cursor, \"MATCH\", KEYS[1], \"COUNT\", KEYS[2]);\n    local keys = scanResult[2];\n    for i = 1, " ++
  "#keys do\n        local key = keys[i];\n        redis.replicate_commands()\n        redis.call(\"" ++
  strUpper command ++
  "\", key);\n        count = count +1;\n    end;\n    cursor = scanResult[1];\nuntil cursor == \"0\";\nreturn count"

/-- One server-side SCAN call over the snapshot of the keyspace taken when
the procedure starts: the cursor is an index into the snapshot, the sentinel
is 0, and the returned batch is at most `cnt` keys, already filtered by the
store against the MATCH pattern (abstracted as the predicate `mtch`). -/
def scanCall (snapshot : List String) (mtch : String → Bool) (cursor cnt : Nat) :
    Nat × List String :=
  (if cursor + cnt < snapshot.length then cursor + cnt else 0,
   ((snapshot.drop cursor).take cnt).filter mtch)

/-- The repeat/until loop of the Lua procedure: scan a batch, apply the
command to every returned key (removing it from the keyspace), add the batch
size to the running count, and stop when the next cursor is the sentinel.
Fuel makes the recursion structural; `runProcedure` supplies enough fuel for
any batch size of at least 1. -/
def procLoop (command : String) (mtch : String → Bool) (cnt : Nat)
    (snapshot : List String) :
    Nat → Nat → Nat → KV → List Cmd → Option (KV × Nat × List Cmd)
  | 0, _, _, _, _ => none
  | fuel + 1, cursor, count, kv, log =>
      let s := scanCall snapshot mtch cursor cnt
      let kv2 := kv.filter (fun p => !(s.2.contains p.1))
      let count2 := count + s.2.length
      let log2 := log ++ s.2.map (fun k => Cmd.storeCall command k)
      if s.1 = 0 then some (kv2, count2, log2)
      else procLoop command mtch cnt snapshot fuel s.1 count2 kv2 log2

/-- A full run of the compiled procedure against the current keyspace,
starting from the cursor sentinel with count 0. -/
def runProcedure (command : String) (mtch : String → Bool) (cnt : Nat) (kv : KV) :
    Option (KV × Nat × List Cmd) :=
  procLoop command mtch cnt (kv.map Prod.fst) (kv.length + 1) 0 0 kv []

/-- EVALSHA: the store runs the procedure when the hash is loaded and
replies "no such script" otherwise (`NoScriptError`).  `none` in the inner
option marks a run that would not terminate (only possible for batch size
0, which the claims exclude). -/
def evalShaCall (st : Store) (command : String) (mtch : String → Bool)
    (itersize : Nat) (sha : String) : List Cmd × Except Exc (Option (Store × Nat)) :=
  if st.scripts.contains sha then
    match runProcedure command mtch itersize st.kv with
    | some (kv2, n, plog) =>
        (Cmd.evalSha sha :: plog, Except.ok (some ({ st with kv := kv2 }, n)))
    | none => ([Cmd.evalSha sha], Except.ok none)
  else
    ([Cmd.evalSha sha], Except.error Exc.noScript)

/-- DjangoRedisExtended._do_pattern (client.py lines 35-63): look the script
hash up under the storage key with the caller's `version`; on a miss,
SCRIPT LOAD the procedure and store its hash via `self.set(key=storage_key,
value=func_sha, client=client)` — note the source passes no `version=` to
`set`, so the hash is stored under the default version; finally EVALSHA. -/
def do_pattern (ctx : Ctx) (command : String) (mtch : String → Bool)
    (version : Option String) (itersize : Nat) (st : Store) :
    List Cmd × Except Exc (Option (Store × Nat)) :=
  let getKey := make_key ctx.pfx (resolveVer version ctx) (storageKey command)
  match kvGet st.kv getKey with
  | some sha =>
      let r := evalShaCall st command mtch itersize sha
      (Cmd.kvGet getKey :: r.1, r.2)
  | none =>
      let text := procedureText command
      let sha := ctx.hashFn text
      let setKey := make_key ctx.pfx ctx.defaultVer (storageKey command)
      let st2 : Store := ⟨kvSet st.kv setKey sha, sha :: st.scripts⟩
      let r := evalShaCall st2 command mtch itersize sha
      (Cmd.kvGet getKey :: Cmd.scriptLoad text :: Cmd.kvSet setKey sha :: r.1, r.2)

/-- DjangoRedisExtended.delete_pattern (client.py lines 65-79): the engine
with the synchronous DEL command. -/
def delete_pattern (ctx : Ctx) (mtch : String → Bool) (version : Option String)
    (itersize : Nat) (st : Store) : List Cmd × Except Exc (Option (Store × Nat)) :=
  do_pattern ctx "DEL" mtch version itersize st

/-- DjangoRedisExtended.unlink_pattern (client.py lines 81-95): the engine
with the asynchronous UNLINK command. -/
def client_unlink_pattern (ctx : Ctx) (mtch : String → Bool) (version : Option String)
    (itersize : Nat) (st : Store) : List Cmd × Except Exc (Option (Store × Nat)) :=
  do_pattern ctx "UNLINK" mtch version itersize st

/-- Modelled from the spec: the django_redis `omit_exception` decorator
(Resilience Wrapper, spec section 4.5; the decorator lives in third-party
django_redis, not under src/): a connection-establishment or protocol-level
failure is intercepted and converted to the configured fallback return
(`none`); every other exception, in particular a caller validation error
raised before any network call, propagates. -/
def omitException {α : Type} (r : Except Exc α) : Except Exc (Option α) :=
  match r with
  | Except.error Exc.connectionInterrupted => Except.ok none
  | Except.error e => Except.error e
  | Except.ok a => Except.ok (some a)

/-- RedisCacheExtended.delete_pattern (cache.py lines 27-31): the client
call under the resilience wrapper. -/
def cache_delete_pattern (ctx : Ctx) (mtch : String → Bool) (version : Option String)
    (itersize : Nat) (st : Store) :
    List Cmd × Except Exc (Option (Option (Store × Nat))) :=
  let r := delete_pattern ctx mtch version itersize st
  (r.1, omitException r.2)

/-- RedisCacheExtended.unlink_pattern (cache.py lines 33-37): the body
delegates to `self.client.delete_pattern`, exactly as written in the
source. -/
def cache_unlink_pattern (ctx : Ctx) (mtch : String → Bool) (version : Option String)
    (itersize : Nat) (st : Store) :
    List Cmd × Except Exc (Option (Option (Store × Nat))) :=
  let r := delete_pattern ctx mtch version itersize st
  (r.1, omitException r.2)

/-- Number of SCRIPT LOAD (compile) calls in an issued-command log. -/
def countScriptLoads (log : List Cmd) : Nat :=
  (log.filter (fun c => match c with | Cmd.scriptLoad _ => true | _ => false)).length

/-- Arguments of a ZADD command as assembled by the client: optional NX/XX
flags followed by alternating raw score and encoded member. -/
inductive ZArg where
  | flagNX
  | flagXX
  | score (s : Int)
  | member (m : String)
  deriving DecidableEq, Repr

/-- Member entries of an assembled ZADD argument list, in order. -/
def membersOf (args : List ZArg) : List String :=
  args.filterMap (fun a => match a with | ZArg.member m => some m | _ => none)

/-- Score entries of an assembled ZADD argument list, in order. -/
def scoresOf (args : List ZArg) : List Int :=
  args.filterMap (fun a => match a with | ZArg.score s => some s | _ => none)

/-- DjangoRedisExtended.zadd (client.py lines 241-270): reject an empty
mapping or simultaneous nx and xx with ValueError before anything reaches
the store; otherwise assemble the flags, then for each mapping entry extend
the argument list with the raw score and the encoded member, and issue one
ZADD.  The first component is the list of store commands issued (each a full
ZADD argument list); `connOk` is whether, past validation, the connection to
the store can be established. -/
def zaddExec {α : Type} (encode : α → String) (mapping : List (α × Int))
    (nx xx : Bool) (connOk : Bool) : List (List ZArg) × Except Exc Unit :=
  if mapping.isEmpty then ([], Except.error Exc.valueError)
  else if nx && xx then ([], Except.error Exc.valueError)
  else
    let args := (if nx then [ZArg.flagNX] else []) ++ (if xx then [ZArg.flagXX] else []) ++
      mapping.flatMap (fun p => [ZArg.score p.2, ZArg.member (encode p.1)])
    if connOk then ([args], Except.ok ())
    else ([], Except.error Exc.connectionInterrupted)

/-- RedisCacheExtended.zadd (cache.py lines 75-78): the client zadd under the
resilience wrapper. -/
def cache_zadd {α : Type} (encode : α → String) (mapping : List (α × Int))
    (nx xx : Bool) (connOk : Bool) : List (List ZArg) × Except Exc (Option Unit) :=
  let r := zaddExec encode mapping nx xx connOk
  (r.1, omitException r.2)

/-- Score bound transmitted to the store for ZCOUNT / ZREMRANGEBYSCORE. -/
inductive Bound where
  | negInf
  | posInf
  | num (n : Int)
  deriving DecidableEq, Repr

/-- Translation of the Python expression `min_s or default` (client.py lines
286 and 356): `None` and the falsy integer `0` both yield the default. -/
def pyOrBound (m : Option Int) (d : Bound) : Bound :=
  match m with
  | none => d
  | some n => if n = 0 then d else Bound.num n

/-- Store-side test of a score against a transmitted bound pair. -/
def scoreInRange (lo hi : Bound) (s : Int) : Bool :=
  (match lo with | Bound.negInf => true | Bound.posInf => false | Bound.num n => n ≤ s) &&
  (match hi with | Bound.negInf => false | Bound.posInf => true | Bound.num n => s ≤ n)

/-- DjangoRedisExtended.zcount (client.py lines 272-286): count of sorted-set
members whose score lies within `min_s or '-inf'` and `max_s or '+inf'`. -/
def zcount (zset : List (String × Int)) (min_s max_s : Option Int) : Nat :=
  (zset.filter (fun p =>
    scoreInRange (pyOrBound min_s Bound.negInf) (pyOrBound max_s Bound.posInf) p.2)).length

/-- DjangoRedisExtended.zrem_range_by_score (client.py lines 341-356):
remove the members whose score lies within `min_s or '-inf'` and
`max_s or '+inf'`; returns the remaining set and the removed count. -/
def zrem_range_by_score (zset : List (String × Int)) (min_s max_s : Option Int) :
    List (String × Int) × Nat :=
  let removed := zset.filter (fun p =>
    scoreInRange (pyOrBound min_s Bound.negInf) (pyOrBound max_s Bound.posInf) p.2)
  (zset.filter (fun p =>
    !(scoreInRange (pyOrBound min_s Bound.negInf) (pyOrBound max_s Bound.posInf) p.2)),
   removed.length)

/-- DjangoRedisExtended.rename (client.py lines 371-387): acquire a default
write connection when none is supplied, check EXISTS on the namespaced source
key, and only when it exists issue RENAME; otherwise return False without
touching the store. -/
def rename (ctx : Ctx) (version : Option String) (client : Option Unit) (kv : KV)
    (key new_key : String) : List Cmd × KV × Bool :=
  let acq : List Cmd := if client.isNone then [Cmd.getClient] else []
  let k := make_key ctx.pfx (resolveVer version ctx) key
  match kvGet kv k with
  | some v =>
      let nk := make_key ctx.pfx (resolveVer version ctx) new_key
      (acq ++ [Cmd.existsCmd k, Cmd.renameCmd k nk], kvSet (kvDel kv k) nk v, true)
  | none =>
      (acq ++ [Cmd.existsCmd k], kv, false)

/-- DjangoRedisExtended.zrem (client.py lines 358-368): the body is
`return client.zrem(name=..., *items)` with no `if client is None` default;
with `client` absent the attribute access on None raises AttributeError
before the key is namespaced, before any member is encoded and before any
command or pool acquisition happens. -/
def zrem {α : Type} (encode : α → String) (ctx : Ctx) (version : Option String)
    (client : Option Unit) (zset : List (String × Int)) (key : String)
    (items : List α) : List Cmd × Except Exc (List (String × Int) × Nat) :=
  match client with
  | none => ([], Except.error Exc.attributeError)
  | some _ =>
      let k := make_key ctx.pfx (resolveVer version ctx) key
      let ms := items.map encode
      let kept := zset.filter (fun p => !(ms.contains p.1))
      ([Cmd.zremCmd k ms], Except.ok (kept, zset.length - kept.length))

/-- DjangoRedisExtended._decode_array (client.py lines 97-98):
`list(map(self.decode, array))`.  Iterating over the store's nil reply
(`None`) raises TypeError; a real array is decoded elementwise in order. -/
def decode_array {α : Type} (decode : String → α) (array : Option (List String)) :
    Except Exc (List α) :=
  match array with
  | none => Except.error Exc.typeError
  | some xs => Except.ok (xs.map decode)

/-- Lookup of a list key in the store's list keyspace; an absent key has no
entry (Redis removes a list key when it empties). -/
def listGet (lists : List (String × List String)) (k : String) : Option (List String) :=
  (lists.find? (fun p => p.1 == k)).map Prod.snd

/-- DjangoRedisExtended.lpop (client.py lines 153-167): issue LPOP with a
count on the namespaced key — the store replies nil for an absent key and
the first `count` elements otherwise — then batch-decode the reply. -/
def lpop {α : Type} (decode : String → α) (ctx : Ctx) (version : Option String)
    (lists : List (String × List String)) (key : String) (count : Nat) :
    Except Exc (List α) :=
  let k := make_key ctx.pfx (resolveVer version ctx) key
  let reply : Option (List String) := (listGet lists k).map (fun xs => xs.take count)
  decode_array decode reply

/-- DjangoRedisExtended.rpop (client.py lines 169-181): as lpop but popping
from the tail (the store returns the last `count` elements, tail first). -/
def rpop {α : Type} (decode : String → α) (ctx : Ctx) (version : Option String)
    (lists : List (String × List String)) (key : String) (count : Nat) :
    Except Exc (List α) :=
  let k := make_key ctx.pfx (resolveVer version ctx) key
  let reply : Option (List String) := (listGet lists k).map (fun xs => xs.reverse.take count)
  decode_array decode reply

/-- Concrete client context for the concrete evaluations below: prefix "p",
default version "1", and a store whose content-hash function is constant
(the hash value never matters beyond identity in these runs). -/
def ctx0 : Ctx := ⟨"p", "1", fun _ => "h1"⟩

/-- Store state after one `delete_pattern` call with caller version "7" on an
empty store: the compiled hash was persisted under the default version "1". -/
def c3st : Store := ⟨[("p:1:proc__del__pattern", "h1")], ["h1"]⟩

/-- Store with both bulk-op procedures compiled and cached, plus one data
key `p:1:a`. -/
def st4 : Store :=
  ⟨[("p:1:proc__del__pattern", "hd"), ("p:1:proc__unlink__pattern", "hu"),
    ("p:1:a", "v")], ["hd", "hu"]⟩

/-! Helper lemmas about list membership and filtering used by the scan-loop
closed form. -/

theorem contains_append (x : String) (A B : List String) :
    (A ++ B).contains x = (A.contains x || B.contains x) := by
  simp [List.elem_eq_mem, List.mem_append, Bool.decide_or]

theorem filter_not_contains_append (kv : KV) (A B : List String) :
    (kv.filter (fun p => !(A.contains p.1))).filter (fun p => !(B.contains p.1)) =
      kv.filter (fun p => !((A ++ B).contains p.1)) := by
  rw [List.filter_filter]
  apply List.filter_congr
  intro p _
  rw [contains_append, Bool.not_or, Bool.and_comm]

/-- Closed form of the scan loop: from any cursor, with enough fuel and a
positive batch size, the loop terminates with the sentinel, the matching
suffix keys removed, the matching suffix counted, and one store call per
matching suffix key appended to the log. -/
theorem procLoop_spec (command : String) (mtch : String → Bool) (cnt : Nat)
    (snapshot : List String) (hcnt : 1 ≤ cnt) :
    ∀ (fuel cursor count : Nat) (kv : KV) (log : List Cmd),
      snapshot.length - cursor < fuel →
      procLoop command mtch cnt snapshot fuel cursor count kv log =
        some (kv.filter (fun p => !(((snapshot.drop cursor).filter mtch).contains p.1)),
              count + ((snapshot.drop cursor).filter mtch).length,
              log ++ ((snapshot.drop cursor).filter mtch).map
                (fun k => Cmd.storeCall command k)) := by
  intro fuel
  induction fuel with
  | zero => intro cursor count kv log h; exact absurd h (Nat.not_lt_zero _)
  | succ fuel ih =>
      intro cursor count kv log h
      simp only [procLoop, scanCall]
      by_cases hlt : cursor + cnt < snapshot.length
      · have hne : ¬ (cursor + cnt = 0) := by omega
        simp only [if_pos hlt, if_neg hne]
        rw [ih (cursor + cnt) _ _ _ (by omega)]
        have hsplit : (snapshot.drop cursor).filter mtch =
            ((snapshot.drop cursor).take cnt).filter mtch ++
              (snapshot.drop (cursor + cnt)).filter mtch := by
          rw [← List.filter_append]
          have : snapshot.drop (cursor + cnt) = (snapshot.drop cursor).drop cnt := by
            rw [List.drop_drop, Nat.add_comm]
          rw [this, List.take_append_drop]
        rw [hsplit, ← filter_not_contains_append]
        simp only [List.length_append, List.map_append, Nat.add_assoc, List.append_assoc]
      · have hz : (if cursor + cnt < snapshot.length then cursor + cnt else 0) = 0 :=
          if_neg hlt
        have htake : (snapshot.drop cursor).take cnt = snapshot.drop cursor := by
          apply List.take_of_length_le
          rw [List.length_drop]
          omega
        rw [hz, if_pos rfl, htake]

/-- Closed form of one full procedure run: for any batch size of at least 1
the run terminates having removed exactly the keys whose namespaced form
matches, counted them, and issued one command per matching key. -/
theorem runProcedure_spec (command : String) (mtch : String → Bool) (cnt : Nat)
    (kv : KV) (hcnt : 1 ≤ cnt) :
    runProcedure command mtch cnt kv =
      some (kv.filter (fun p => !(mtch p.1)),
            ((kv.map Prod.fst).filter mtch).length,
            ((kv.map Prod.fst).filter mtch).map (fun k => Cmd.storeCall command k)) := by
  unfold runProcedure
  rw [procLoop_spec command mtch cnt (kv.map Prod.fst) hcnt _ 0 0 kv []
    (by simp [List.length_map])]
  simp only [List.drop_zero, List.nil_append, Nat.zero_add]
  have hfc : ∀ p ∈ kv,
      (!(((kv.map Prod.fst).filter mtch).contains p.1)) = (!(mtch p.1)) := by
    intro p hp
    by_cases hm : mtch p.1
    · have : p.1 ∈ (kv.map Prod.fst).filter mtch := by
        rw [List.mem_filter]
        exact ⟨List.mem_map_of_mem Prod.fst hp, hm⟩
      simp [hm, List.elem_eq_mem, this]
    · have : p.1 ∉ (kv.map Prod.fst).filter mtch := by
        rw [List.mem_filter]
        intro hc
        exact hm hc.2
      simp [hm, List.elem_eq_mem, this]
  rw [List.filter_congr hfc]

/-- Claim C1: for every glob pattern (abstracted as the store-side match
predicate over namespaced keys), every keyspace, and every batch size of at
least 1, the pattern bulk-delete engine (`_do_pattern`, here in the cached
state) removes exactly the matching keys, leaves the non-matching keys
unchanged, returns the number of matching keys, applies the command once to
each matching key, and terminates with the cursor back at the sentinel; the
batch size does not occur in the result, so it affects only the number of
scan rounds, never which keys are removed or the returned count. -/
theorem do_pattern_bulk_delete_correct (ctx : Ctx) (command : String)
    (mtch : String → Bool) (version : Option String) (itersize : Nat)
    (st : Store) (sha : String)
    (hsha : kvGet st.kv
      (make_key ctx.pfx (resolveVer version ctx) (storageKey command)) = some sha)
    (hld : sha ∈ st.scripts)
    (hcnt : 1 ≤ itersize) :
    do_pattern ctx command mtch version itersize st =
      (Cmd.kvGet (make_key ctx.pfx (resolveVer version ctx) (storageKey command)) ::
         Cmd.evalSha sha ::
         ((st.kv.map Prod.fst).filter mtch).map (fun k => Cmd.storeCall command k),
       Except.ok (some (⟨st.kv.filter (fun p => !(mtch p.1)), st.scripts⟩,
         ((st.kv.map Prod.fst).filter mtch).length))) := by
  have hc : st.scripts.contains sha = true := by
    simp [List.elem_eq_mem, hld]
  simp only [do_pattern, hsha, evalShaCall, hc, if_true,
    runProcedure_spec command mtch itersize st.kv hcnt]

/-- Concrete run of the C1 theorem: a keyspace of three keys (the storage
key, one matching data key, one non-matching data key), batch size 1. -/
theorem do_pattern_bulk_delete_correct_witness :
    do_pattern ctx0 "DEL" (fun k => k == "p:1:a") none 1
        ⟨[("p:1:proc__del__pattern", "h1"), ("p:1:a", "x"), ("p:1:b", "y")], ["h1"]⟩ =
      ([Cmd.kvGet "p:1:proc__del__pattern", Cmd.evalSha "h1",
        Cmd.storeCall "DEL" "p:1:a"],
       Except.ok (some (⟨[("p:1:proc__del__pattern", "h1"), ("p:1:b", "y")], ["h1"]⟩,
         1))) := by
  rw [do_pattern_bulk_delete_correct ctx0 "DEL" (fun k => k == "p:1:a") none 1
    ⟨[("p:1:proc__del__pattern", "h1"), ("p:1:a", "x"), ("p:1:b", "y")], ["h1"]⟩ "h1"
    (by decide) (by decide) (by decide)]
  decide

/-- Counterexample to claim C2 as stated: in the cached state (the storage
key holds hash "h9") with the script evicted from the store's script cache,
the engine does not recompile and does not retry — it issues only the lookup
and the EVALSHA, and the no-such-script failure propagates. -/
theorem noscript_retry_counterexample :
    do_pattern ctx0 "DEL" (fun _ => false) none 1
        ⟨[("p:1:proc__del__pattern", "h9")], []⟩ =
      ([Cmd.kvGet "p:1:proc__del__pattern", Cmd.evalSha "h9"],
       Except.error Exc.noScript)
    ∧ countScriptLoads [Cmd.kvGet "p:1:proc__del__pattern", Cmd.evalSha "h9"] = 0 := by
  exact ⟨by decide, by decide⟩

/-- Claim C2 amended: in the cached state, if the store no longer holds the
cached hash in its script cache, the engine issues no recompilation at all
and the no-such-script failure propagates out of the engine (client.py lines
57-63 have no handler for it); a recompile happens only when the storage key
itself is absent. -/
theorem noscript_propagates_without_recompile (ctx : Ctx) (command : String)
    (mtch : String → Bool) (version : Option String) (itersize : Nat)
    (st : Store) (sha : String)
    (hsha : kvGet st.kv
      (make_key ctx.pfx (resolveVer version ctx) (storageKey command)) = some sha)
    (hev : sha ∉ st.scripts) :
    do_pattern ctx command mtch version itersize st =
      ([Cmd.kvGet (make_key ctx.pfx (resolveVer version ctx) (storageKey command)),
        Cmd.evalSha sha], Except.error Exc.noScript)
    ∧ countScriptLoads (do_pattern ctx command mtch version itersize st).1 = 0 := by
  have hc : st.scripts.contains sha = false := by
    simp [List.elem_eq_mem, hev]
  constructor
  · simp only [do_pattern, hsha, evalShaCall, hc, Bool.false_eq_true, if_false]
  · simp only [do_pattern, hsha, evalShaCall, hc, Bool.false_eq_true, if_false,
      countScriptLoads, List.filter, List.length_nil]

/-- Concrete run of the amended C2 theorem: cached hash "h9", empty script
cache. -/
theorem noscript_propagates_without_recompile_witness :
    do_pattern ctx0 "UNLINK" (fun _ => false) none 3
        ⟨[("p:1:proc__unlink__pattern", "h9")], []⟩ =
      ([Cmd.kvGet "p:1:proc__unlink__pattern", Cmd.evalSha "h9"],
       Except.error Exc.noScript)
    ∧ countScriptLoads (do_pattern ctx0 "UNLINK" (fun _ => false) none 3
        ⟨[("p:1:proc__unlink__pattern", "h9")], []⟩).1 = 0 :=
  noscript_propagates_without_recompile ctx0 "UNLINK" (fun _ => false) none 3
    ⟨[("p:1:proc__unlink__pattern", "h9")], []⟩ "h9" (by decide) (by decide)

/-- Claim C3 (code bug, evaluated at the failing input): with caller version
"7" (non-default), the first invocation on an empty store compiles once and
persists the hash under the default version "1" (state `c3st`); the second
invocation, reading the storage key under version "7", misses and compiles
again — one SCRIPT LOAD on each of the two calls, where the claim requires
none on the second. -/
theorem version_mismatch_recompiles :
    (do_pattern ctx0 "DEL" (fun _ => false) (some "7") 1 ⟨[], []⟩).2 =
        Except.ok (some (c3st, 0))
    ∧ countScriptLoads (do_pattern ctx0 "DEL" (fun _ => false) (some "7") 1
        ⟨[], []⟩).1 = 1
    ∧ countScriptLoads (do_pattern ctx0 "DEL" (fun _ => false) (some "7") 1 c3st).1 = 1 := by
  refine ⟨?_, ?_, ?_⟩ <;> decide

/-- Claim C4 (code bug, evaluated at the failing input): with both
procedures compiled and cached (`st4`) and a pattern matching the data key
`p:1:a`, the cache-layer unlink operation reads the DEL storage key, invokes
the DEL procedure's hash and applies DEL to the matching key — identically
to the cache-layer delete operation — while the client-layer unlink
operation applies UNLINK as the claim describes. -/
theorem cache_unlink_issues_del :
    (cache_unlink_pattern ctx0 (fun k => k == "p:1:a") none 1 st4).1 =
        [Cmd.kvGet "p:1:proc__del__pattern", Cmd.evalSha "hd",
         Cmd.storeCall "DEL" "p:1:a"]
    ∧ (cache_delete_pattern ctx0 (fun k => k == "p:1:a") none 1 st4).1 =
        [Cmd.kvGet "p:1:proc__del__pattern", Cmd.evalSha "hd",
         Cmd.storeCall "DEL" "p:1:a"]
    ∧ (client_unlink_pattern ctx0 (fun k => k == "p:1:a") none 1 st4).1 =
        [Cmd.kvGet "p:1:proc__unlink__pattern", Cmd.evalSha "hu",
         Cmd.storeCall "UNLINK" "p:1:a"] := by
  refine ⟨?_, ?_, ?_⟩ <;> decide

/-- Member entries of the ZADD argument list built from a mapping are exactly
the encodings of the mapping's members, in order. -/
theorem membersOf_flat {α : Type} (encode : α → String) (mapping : List (α × Int)) :
    membersOf (mapping.flatMap (fun p => [ZArg.score p.2, ZArg.member (encode p.1)])) =
      mapping.map (fun p => encode p.1) := by
  induction mapping with
  | nil => rfl
  | cons p l ih =>
      simp only [List.flatMap_cons, membersOf, List.filterMap_append] at *
      simp [List.filterMap, ih]

/-- Score entries of the ZADD argument list built from a mapping are exactly
the mapping's scores, as given, in order. -/
theorem scoresOf_flat {α : Type} (encode : α → String) (mapping : List (α × Int)) :
    scoresOf (mapping.flatMap (fun p => [ZArg.score p.2, ZArg.member (encode p.1)])) =
      mapping.map (fun p => p.2) := by
  induction mapping with
  | nil => rfl
  | cons p l ih =>
      simp only [List.flatMap_cons, scoresOf, List.filterMap_append] at *
      simp [List.filterMap, ih]

/-- The optional NX/XX flags contribute no member entry. -/
theorem membersOf_zadd_args {α : Type} (encode : α → String)
    (mapping : List (α × Int)) (nx xx : Bool) :
    membersOf ((if nx then [ZArg.flagNX] else []) ++ (if xx then [ZArg.flagXX] else []) ++
        mapping.flatMap (fun p => [ZArg.score p.2, ZArg.member (encode p.1)])) =
      mapping.map (fun p => encode p.1) := by
  cases nx <;> cases xx <;>
    simp only [if_true, if_false, membersOf, List.filterMap_append, List.filterMap_nil,
      List.filterMap_cons, List.nil_append, List.append_nil] <;>
    simpa [membersOf] using membersOf_flat encode mapping

/-- The optional NX/XX flags contribute no score entry. -/
theorem scoresOf_zadd_args {α : Type} (encode : α → String)
    (mapping : List (α × Int)) (nx xx : Bool) :
    scoresOf ((if nx then [ZArg.flagNX] else []) ++ (if xx then [ZArg.flagXX] else []) ++
        mapping.flatMap (fun p => [ZArg.score p.2, ZArg.member (encode p.1)])) =
      mapping.map (fun p => p.2) := by
  cases nx <;> cases xx <;>
    simp only [if_true, if_false, scoresOf, List.filterMap_append, List.filterMap_nil,
      List.filterMap_cons, List.nil_append, List.append_nil] <;>
    simpa [scoresOf] using scoresOf_flat encode mapping

/-- Claim C5: the cache layer's public operations run under the resilience
wrapper, which converts a connection-establishment/protocol failure into the
fallback return (here shown on zadd: a valid call over a dead connection
returns the fallback with no error), while a caller validation error raised
before any network call (zadd on an empty mapping) passes through the
wrapper unsuppressed; in general the wrapper converts exactly the
connection-interrupted failure and propagates every other error. -/
theorem resilience_wrapper_boundary {α : Type} (encode : α → String)
    (mapping : List (α × Int)) (nx xx : Bool)
    (h1 : mapping ≠ []) (h2 : ¬(nx = true ∧ xx = true)) :
    cache_zadd encode mapping nx xx false = ([], Except.ok none)
    ∧ (∀ connOk : Bool,
        cache_zadd encode ([] : List (α × Int)) nx xx connOk =
          ([], Except.error Exc.valueError))
    ∧ (∀ (β : Type) (e : Exc), e ≠ Exc.connectionInterrupted →
        omitException (Except.error e : Except Exc β) = Except.error e)
    ∧ (∀ (β : Type) (a : β), omitException (Except.ok a) = Except.ok (some a)) := by
  have hne : mapping.isEmpty = false := by
    cases mapping with
    | nil => exact absurd rfl h1
    | cons a l => rfl
  have hflags : (nx && xx) = false := by
    cases nx <;> cases xx <;> simp_all
  refine ⟨?_, ?_, ?_, ?_⟩
  · simp [cache_zadd, zaddExec, hne, hflags, omitException]
  · intro connOk
    simp [cache_zadd, zaddExec, omitException]
  · intro β e he
    cases e
    · exact absurd rfl he
    all_goals rfl
  · intro β a
    rfl

/-- Concrete run of the C5 theorem: one-element mapping, no flags. -/
theorem resilience_wrapper_boundary_witness :
    cache_zadd (fun n : Int => toString n) [((5 : Int), (7 : Int))] false false false =
        ([], Except.ok none)
    ∧ (∀ connOk : Bool,
        cache_zadd (fun n : Int => toString n) ([] : List (Int × Int)) false false connOk =
          ([], Except.error Exc.valueError))
    ∧ (∀ (β : Type) (e : Exc), e ≠ Exc.connectionInterrupted →
        omitException (Except.error e : Except Exc β) = Except.error e)
    ∧ (∀ (β : Type) (a : β), omitException (Except.ok a) = Except.ok (some a)) :=
  resilience_wrapper_boundary (fun n : Int => toString n) [((5 : Int), (7 : Int))]
    false false (by decide) (by decide)

/-- Claim C6: zadd rejects an empty mapping, and simultaneous nx and xx,
with ValueError while issuing no command at all (so the store is untouched);
on a valid mapping it issues exactly one ZADD whose member entries are the
mapping's members encoded independently and whose score entries are the
mapping's scores as given, un-encoded. -/
theorem zadd_validation_and_encoding {α : Type} (encode : α → String)
    (mapping : List (α × Int)) (nx xx : Bool)
    (h1 : mapping ≠ []) (h2 : ¬(nx = true ∧ xx = true)) :
    (∀ (nx2 xx2 c : Bool),
        zaddExec encode ([] : List (α × Int)) nx2 xx2 c =
          ([], Except.error Exc.valueError))
    ∧ (∀ c : Bool,
        zaddExec encode mapping true true c = ([], Except.error Exc.valueError))
    ∧ (∃ args : List ZArg,
        zaddExec encode mapping nx xx true = ([args], Except.ok ())
        ∧ membersOf args = mapping.map (fun p => encode p.1)
        ∧ scoresOf args = mapping.map (fun p => p.2)) := by
  have hne : mapping.isEmpty = false := by
    cases mapping with
    | nil => exact absurd rfl h1
    | cons a l => rfl
  have hflags : (nx && xx) = false := by
    cases nx <;> cases xx <;> simp_all
  refine ⟨?_, ?_, ?_⟩
  · intro nx2 xx2 c
    rfl
  · intro c
    cases hm : mapping.isEmpty <;> simp [zaddExec, hm]
  · refine ⟨(if nx then [ZArg.flagNX] else []) ++ (if xx then [ZArg.flagXX] else []) ++
      mapping.flatMap (fun p => [ZArg.score p.2, ZArg.member (encode p.1)]), ?_, ?_, ?_⟩
    · simp [zaddExec, hne, hflags]
    · exact membersOf_zadd_args encode mapping nx xx
    · exact scoresOf_zadd_args encode mapping nx xx

/-- Concrete run of the C6 theorem: two members with scores 7 and 0. -/
theorem zadd_validation_and_encoding_witness :
    (∀ (nx2 xx2 c : Bool),
        zaddExec (fun n : Int => toString n) ([] : List (Int × Int)) nx2 xx2 c =
          ([], Except.error Exc.valueError))
    ∧ (∀ c : Bool,
        zaddExec (fun n : Int => toString n) [((5 : Int), (7 : Int)), ((6 : Int), (0 : Int))]
          true true c = ([], Except.error Exc.valueError))
    ∧ (∃ args : List ZArg,
        zaddExec (fun n : Int => toString n) [((5 : Int), (7 : Int)), ((6 : Int), (0 : Int))]
          false false true = ([args], Except.ok ())
        ∧ membersOf args = [((5 : Int), (7 : Int)), ((6 : Int), (0 : Int))].map
            (fun p => toString p.1)
        ∧ scoresOf args = [((5 : Int), (7 : Int)), ((6 : Int), (0 : Int))].map
            (fun p => p.2)) :=
  zadd_validation_and_encoding (fun n : Int => toString n)
    [((5 : Int), (7 : Int)), ((6 : Int), (0 : Int))] false false
    (by decide) (by decide)

/-- Counterexample to claim C7 as stated: the caller-supplied bound 0 is not
transmitted as the bound 0 — being falsy in `min_s or '-inf'` it is replaced
by the open-ended bound, so zcount over a set whose only member has score -5
returns 1 (the claim's reading, min bound 0, would return 0), and the
remove-by-score-range call with min 0 empties the set. -/
theorem supplied_zero_bound_counterexample :
    pyOrBound (some 0) Bound.negInf = Bound.negInf
    ∧ Bound.negInf ≠ Bound.num 0
    ∧ zcount [("a", (-5 : Int))] (some 0) none = 1
    ∧ zrem_range_by_score [("a", (-5 : Int))] (some 0) none = ([], 1) := by
  refine ⟨?_, ?_, ?_, ?_⟩ <;> decide

/-- Claim C7 amended: an unspecified bound defaults to the open-ended bound
(so zcount with no bounds counts every member and remove-by-score-range with
no bounds removes every member); a supplied nonzero bound is transmitted as
the given numeric bound; a supplied bound of 0, being falsy in the Python
`or` defaulting, is treated exactly like an unspecified bound. -/
theorem bounds_defaulting_amended (zset : List (String × Int)) (max_s : Option Int)
    (n : Int) (hn : n ≠ 0) :
    zcount zset none none = zset.length
    ∧ pyOrBound (some n) Bound.negInf = Bound.num n
    ∧ pyOrBound (some n) Bound.posInf = Bound.num n
    ∧ zcount zset (some 0) max_s = zcount zset none max_s
    ∧ zrem_range_by_score zset none none = ([], zset.length)
    ∧ zrem_range_by_score zset (some 0) max_s = zrem_range_by_score zset none max_s := by
  refine ⟨?_, ?_, ?_, ?_, ?_, ?_⟩
  · simp [zcount, pyOrBound, scoreInRange]
  · simp [pyOrBound, hn]
  · simp [pyOrBound, hn]
  · simp [zcount, pyOrBound]
  · simp [zrem_range_by_score, pyOrBound, scoreInRange]
  · simp [zrem_range_by_score, pyOrBound]

/-- Concrete run of the C7 amended theorem: two members, nonzero bound 3. -/
theorem bounds_defaulting_amended_witness :
    zcount [("a", (-5 : Int)), ("b", (2 : Int))] none none = 2
    ∧ pyOrBound (some 3) Bound.negInf = Bound.num 3
    ∧ pyOrBound (some 3) Bound.posInf = Bound.num 3
    ∧ zcount [("a", (-5 : Int)), ("b", (2 : Int))] (some 0) (some 9) =
        zcount [("a", (-5 : Int)), ("b", (2 : Int))] none (some 9)
    ∧ zrem_range_by_score [("a", (-5 : Int)), ("b", (2 : Int))] none none = ([], 2)
    ∧ zrem_range_by_score [("a", (-5 : Int)), ("b", (2 : Int))] (some 0) (some 9) =
        zrem_range_by_score [("a", (-5 : Int)), ("b", (2 : Int))] none (some 9) :=
  bounds_defaulting_amended [("a", (-5 : Int)), ("b", (2 : Int))] (some 9) 3 (by decide)

/-- Claim C8: rename of a key whose namespaced form is absent checks
existence first and returns false without raising; it issues no RENAME
command and leaves the keyspace unchanged. -/
theorem rename_absent_returns_false (ctx : Ctx) (version : Option String)
    (client : Option Unit) (kv : KV) (key new_key : String)
    (h : kvGet kv (make_key ctx.pfx (resolveVer version ctx) key) = none) :
    rename ctx version client kv key new_key =
      ((if client.isNone then [Cmd.getClient] else []) ++
         [Cmd.existsCmd (make_key ctx.pfx (resolveVer version ctx) key)], kv, false) := by
  simp only [rename, h]

/-- Concrete run of the C8 theorem: renaming the absent key "a". -/
theorem rename_absent_returns_false_witness :
    rename ctx0 none none [("p:1:b", "y")] "a" "c" =
      ([Cmd.getClient, Cmd.existsCmd "p:1:a"], [("p:1:b", "y")], false) := by
  rw [rename_absent_returns_false ctx0 none none [("p:1:b", "y")] "a" "c" (by decide)]
  decide

/-- Claim C9: the client-layer zrem with no explicitly supplied connection
fails with AttributeError (attribute access on None) before acquiring any
default connection from the pool and before issuing any store command — its
command log is empty — so removal through the default connection path is
impossible; with an explicit connection it issues the ZREM of the encoded
members. -/
theorem zrem_requires_explicit_client {α : Type} (encode : α → String) (ctx : Ctx)
    (version : Option String) (zset : List (String × Int)) (key : String)
    (items : List α) :
    zrem encode ctx version none zset key items = ([], Except.error Exc.attributeError)
    ∧ (∀ c : Unit,
        (zrem encode ctx version (some c) zset key items).1 =
          [Cmd.zremCmd (make_key ctx.pfx (resolveVer version ctx) key)
            (items.map encode)]) :=
  ⟨rfl, fun _ => rfl⟩

/-- Claim C10: popping from a key absent from the store raises TypeError in
the batch decode step (the store's nil reply is not iterable) for both lpop
and rpop — the call crashes rather than returning an empty list. -/
theorem lpop_rpop_absent_key_raises {α : Type} (decode : String → α) (ctx : Ctx)
    (version : Option String) (lists : List (String × List String)) (key : String)
    (count : Nat)
    (h : listGet lists (make_key ctx.pfx (resolveVer version ctx) key) = none) :
    lpop decode ctx version lists key count = Except.error Exc.typeError
    ∧ rpop decode ctx version lists key count = Except.error Exc.typeError := by
  constructor <;> simp [lpop, rpop, h, decode_array]

/-- Concrete run of the C10 theorem: popping key "a" from a store holding
only the list "p:1:b". -/
theorem lpop_rpop_absent_key_raises_witness :
    lpop (fun s => s) ctx0 none [("p:1:b", ["x"])] "a" 1 = Except.error Exc.typeError
    ∧ rpop (fun s => s) ctx0 none [("p:1:b", ["x"])] "a" 1 = Except.error Exc.typeError :=
  lpop_rpop_absent_key_raises (fun s => s) ctx0 none [("p:1:b", ["x"])] "a" 1 (by decide)

end RedisExt
